import Mathlib

/-!
Verification of the diagnostic rendering pipeline in `src/libutil/error.cc`.
The C++ functions `showErrPos`, `getCodeLines`, `printCodeLines` and
`operator<<(std::ostream&, const ErrorInfo&)` are shallowly embedded as pure
Lean functions.  File I/O is modelled by an explicit file system
`String → Option SrcFile`; a `SrcFile` is the list of lines `readLine`
delivers, followed by a tail event (end-of-file, or a read failure that
throws an exception other than `EndOfFile`).  Output streams are modelled as
lists of output lines.
-/

namespace NixError

/-- Modelled from the spec: the ANSI color escape strings come from a header
(`ansicolor.hh`) that is not part of the fragment; these are the standard
escape sequences the spec's "color on/off escape sequences" refer to. -/
def ANSI_NORMAL : String := "\x1b[0m"

/-- Modelled from the spec: red escape sequence (errors, carets). -/
def ANSI_RED : String := "\x1b[31;1m"

/-- Modelled from the spec: green escape sequence (info/verbose tiers). -/
def ANSI_GREEN : String := "\x1b[32;1m"

/-- Modelled from the spec: yellow escape sequence (warnings/debug). -/
def ANSI_YELLOW : String := "\x1b[33;1m"

/-- Modelled from the spec: blue escape sequence (header/file decoration). -/
def ANSI_BLUE : String := "\x1b[34;1m"

/-- `ErrPos` from the data model: file, 1-based line and column, with
`line <= 0` meaning "no position" and `column <= 0` meaning "column
unknown".  Lines and columns are C++ `int`s, embedded as `Int`. -/
structure ErrPos where
  file : String
  line : Int
  column : Int
deriving DecidableEq, Repr

/-- `NixCode`: a position plus the up-to-three surrounding source lines
(`std::optional<string>` fields, embedded as `Option String`). -/
structure NixCode where
  errPos : ErrPos
  prevLineOfCode : Option String := none
  errLineOfCode : Option String := none
  nextLineOfCode : Option String := none
deriving DecidableEq, Repr

/-- `ErrorInfo`: the diagnostic report.  `level` is the C++ `Verbosity`
enum value; modelled from the spec, the seven enumerators are encoded as
`0 = lvlError, 1 = lvlWarn, 2 = lvlInfo, 3 = lvlTalkative, 4 = lvlChatty,
5 = lvlVomit, 6 = lvlDebug` (spec order), as `Int` so that out-of-range
numeric values are expressible.  `hint` is `std::optional<hintformat>`
(modelled from the spec as an optional string, rendered via `hf.str()`);
`programName` is the process-wide optional program name. -/
structure ErrorInfo where
  level : Int
  name : String
  description : String
  hint : Option String
  programName : Option String
  nixCode : Option NixCode
deriving DecidableEq, Repr

/-- `showErrPos` (error.cc lines 42-54): `"(line:column)"` when both are
positive, `"(line)"` when only the line is, `""` otherwise. -/
def showErrPos (p : ErrPos) : String :=
  if 0 < p.line then
    if 0 < p.column then
      "(" ++ toString p.line ++ ":" ++ toString p.column ++ ")"
    else
      "(" ++ toString p.line ++ ")"
  else
    ""

/-- Tail event of a modelled source file: what `readLine` does once the
listed lines are exhausted — throw `EndOfFile`, or throw some other
read-failure exception. -/
inductive TailEvent where
  | eof : TailEvent
  | fail : TailEvent
deriving DecidableEq, Repr

/-- A readable file: the lines `readLine` returns in order, then the tail
event. -/
structure SrcFile where
  lines : List String
  tailEv : TailEvent
deriving DecidableEq, Repr

/-- The file system visible to `open`: `none` means opening the path
fails. -/
def FileSystem : Type := String → Option SrcFile

/-- Result of the `getCodeLines` read loop: the updated `NixCode`, how many
lines were consumed from the stream, and whether the loop ran off the end
of the listed lines (so that the tail event was hit) rather than breaking
out after recording `nextLineOfCode`. -/
structure LoopOut where
  code : NixCode
  consumed : Nat
  reachedEnd : Bool
deriving DecidableEq, Repr

/-- The `do { line = readLine(fd); ++count; ... } while (true)` loop of
`getCodeLines` (error.cc lines 72-91): `pl = errPos.line - 1`; the line
read at count `pl` is recorded as `prevLineOfCode`, at `pl + 1` as
`errLineOfCode`, and at `pl + 2` as `nextLineOfCode` followed by `break`.
The loop is only entered with `errPos.line > 0`, so `pl` and the 1-based
`count` are embedded as `Nat`. -/
def codeLoop (pl : Nat) : List String → Nat → NixCode → LoopOut
  | [], _, nc => ⟨nc, 0, true⟩
  | l :: ls, count, nc =>
    if count < pl then
      let r := codeLoop pl ls (count + 1) nc
      ⟨r.code, r.consumed + 1, r.reachedEnd⟩
    else if count = pl then
      let r := codeLoop pl ls (count + 1) { nc with prevLineOfCode := some l }
      ⟨r.code, r.consumed + 1, r.reachedEnd⟩
    else if count = pl + 1 then
      let r := codeLoop pl ls (count + 1) { nc with errLineOfCode := some l }
      ⟨r.code, r.consumed + 1, r.reachedEnd⟩
    else if count = pl + 2 then
      ⟨{ nc with nextLineOfCode := some l }, 1, false⟩
    else
      let r := codeLoop pl ls (count + 1) nc
      ⟨r.code, r.consumed + 1, r.reachedEnd⟩

/-- Result of one run of `getCodeLines`: the updated `NixCode`, whether any
file-system call (`open`) was made, and whether a diagnostic was written to
the side error channel (`printError`). -/
structure ExtractOut where
  code : NixCode
  fsAccessed : Bool
  logged : Bool
deriving DecidableEq, Repr

/-- `getCodeLines` (error.cc lines 56-99) with its observable effects made
explicit.  `line <= 0` and the `"(string)"` sentinel return immediately
with no I/O; a failing `open` throws `SysError`, caught by
`catch (std::exception&)` which logs via `printError`; the read loop's
`EndOfFile` is caught silently, any other read failure is logged; in every
case the function returns (never raises) with whatever was collected. -/
def extractRun (fs : FileSystem) (nc : NixCode) : ExtractOut :=
  if nc.errPos.line ≤ 0 then
    ⟨nc, false, false⟩
  else if nc.errPos.file = "(string)" then
    ⟨nc, false, false⟩
  else
    match fs nc.errPos.file with
    | none => ⟨nc, true, true⟩
    | some f =>
      let r := codeLoop (nc.errPos.line - 1).toNat f.lines 1 nc
      if r.reachedEnd then
        match f.tailEv with
        | TailEvent.eof => ⟨r.code, true, false⟩
        | TailEvent.fail => ⟨r.code, true, true⟩
      else
        ⟨r.code, true, false⟩

/-- The `NixCode` produced by `getCodeLines`. -/
def getCodeLines (fs : FileSystem) (nc : NixCode) : NixCode :=
  (extractRun fs nc).code

/-- The boost-format width spec `%|5d|`: decimal rendering right-aligned in
a minimum field of 5 characters (wider numbers are not truncated). -/
def padLeft5 (n : Int) : String :=
  let s := toString n
  if s.length < 5 then String.mk (List.replicate (5 - s.length) ' ') ++ s else s

/-- The run of `column` spaces built by the caret loop
(error.cc lines 123-126). -/
def spacesOf (k : Int) : String :=
  String.mk (List.replicate k.toNat ' ')

/-- Leading gutter of a numbered source line, through the `|` glyph:
`"<pre> <5-wide number>|"` (from the format string `"%1% %|2$5d|| %3%"`). -/
def numberedGutter (pre : String) (n : Int) : String :=
  pre ++ " " ++ padLeft5 n ++ "|"

/-- Leading gutter of the caret line, through the `|` glyph:
`"<pre>      |"` (from the format string `"%1%      |%2%..."`). -/
def caretGutter (pre : String) : String :=
  pre ++ "      |"

/-- One numbered source line: gutter, a space, then the text. -/
def codeLine (pre : String) (n : Int) (text : String) : String :=
  numberedGutter pre n ++ " " ++ text

/-- The caret line: caret gutter, `column` spaces, then `^` wrapped in the
error color. -/
def caretLine (pre : String) (col : Int) : String :=
  caretGutter pre ++ spacesOf col ++ ANSI_RED ++ "^" ++ ANSI_NORMAL

/-- `printCodeLines` (error.cc lines 102-145): previous line if present;
error line if present, followed by the caret line when `column > 0`; next
line if present.  Output is the list of emitted lines. -/
def printCodeLines (pre : String) (nc : NixCode) : List String :=
  (match nc.prevLineOfCode with
   | some l => [codeLine pre (nc.errPos.line - 1) l]
   | none => []) ++
  (match nc.errLineOfCode with
   | some l =>
     [codeLine pre nc.errPos.line l] ++
       (if 0 < nc.errPos.column then [caretLine pre nc.errPos.column] else [])
   | none => []) ++
  (match nc.nextLineOfCode with
   | some l => [codeLine pre (nc.errPos.line + 1) l]
   | none => [])

/-- A header segment: visible text, or a color escape sequence.  The header
format string interleaves these pieces explicitly, so the split is read off
the `fmt` calls in `operator<<`. -/
inductive Seg where
  | txt : String → Seg
  | esc : String → Seg

/-- The characters a segment contributes to the byte stream. -/
def segStr : Seg → String
  | Seg.txt s => s
  | Seg.esc s => s

/-- Concatenation of all segments: the actual emitted line. -/
def segsRender : List Seg → String
  | [] => ""
  | s :: r => segStr s ++ segsRender r

/-- Total length of the visible (non-escape) segments. -/
def segsVisibleLen : List Seg → Nat
  | [] => 0
  | Seg.txt s :: r => s.length + segsVisibleLen r
  | Seg.esc _ :: r => segsVisibleLen r

/-- The severity `switch` of `operator<<` (error.cc lines 152-200), as the
segments of the level string: color-on, label, color-off for the seven
recognized values, and the plain fallback text
`"invalid error level: <N>"` otherwise. -/
def levelSegs (l : Int) : List Seg :=
  if l = 0 then [Seg.esc ANSI_RED, Seg.txt "error:", Seg.esc ANSI_NORMAL]
  else if l = 1 then [Seg.esc ANSI_YELLOW, Seg.txt "warning:", Seg.esc ANSI_NORMAL]
  else if l = 2 then [Seg.esc ANSI_GREEN, Seg.txt "info:", Seg.esc ANSI_NORMAL]
  else if l = 3 then [Seg.esc ANSI_GREEN, Seg.txt "talk:", Seg.esc ANSI_NORMAL]
  else if l = 4 then [Seg.esc ANSI_GREEN, Seg.txt "chat:", Seg.esc ANSI_NORMAL]
  else if l = 5 then [Seg.esc ANSI_GREEN, Seg.txt "vomit:", Seg.esc ANSI_NORMAL]
  else if l = 6 then [Seg.esc ANSI_YELLOW, Seg.txt "debug:", Seg.esc ANSI_NORMAL]
  else [Seg.txt ("invalid error level: " ++ toString l)]

/-- The `levelString` variable of `operator<<`: the level segments as one
string (escape codes included, exactly as the C++ string is built). -/
def levelString (l : Int) : String :=
  segsRender (levelSegs l)

/-- The `ndl` variable of `operator<<` (error.cc line 202):
`prefix.length() + levelString.length() + 3 + name.length() +
programName.value_or("").length()`.  Note that `levelString.length()`
counts the escape-code bytes. -/
def ndl (pre : String) (e : ErrorInfo) : Nat :=
  pre.length + (levelString e.level).length + 3 + e.name.length +
    (e.programName.getD "").length

/-- The `dashwidth` variable (error.cc line 203):
`ndl > errwidth - 3 ? 3 : errwidth - ndl` with `errwidth = 80`. -/
def dashwidth (pre : String) (e : ErrorInfo) : Nat :=
  if 80 - 3 < ndl pre e then 3 else 80 - ndl pre e

/-- The dash string built from `dashwidth`. -/
def dashesStr (pre : String) (e : ErrorInfo) : String :=
  String.mk (List.replicate (dashwidth pre e) '-')

/-- The header (divider) line of `operator<<` (error.cc lines 209-224) as
segments: with a non-empty name,
`prefix, levelString, BLUE, " --- ", name, " ", dashes, " ", programName,
NORMAL`; with an empty name the `" -----"` variant with no name segment. -/
def headerSegs (pre : String) (e : ErrorInfo) : List Seg :=
  if e.name ≠ "" then
    [Seg.txt pre] ++ levelSegs e.level ++
      [Seg.esc ANSI_BLUE, Seg.txt " --- ", Seg.txt e.name, Seg.txt " ",
       Seg.txt (dashesStr pre e), Seg.txt " ",
       Seg.txt (e.programName.getD ""), Seg.esc ANSI_NORMAL]
  else
    [Seg.txt pre] ++ levelSegs e.level ++
      [Seg.esc ANSI_BLUE, Seg.txt " -----", Seg.txt (dashesStr pre e),
       Seg.txt " ", Seg.txt (e.programName.getD ""), Seg.esc ANSI_NORMAL]

/-- The emitted header line (escape codes included). -/
def headerLine (pre : String) (e : ErrorInfo) : String :=
  segsRender (headerSegs pre e)

/-- Visible length of the header line, ignoring color escape codes. -/
def headerVisibleLen (pre : String) (e : ErrorInfo) : Nat :=
  segsVisibleLen (headerSegs pre e)

/-- The "filename, line, column" block of `operator<<`
(error.cc lines 227-238): when a position is present, the
`"in file: <file> <pos>"` line for a non-empty file, otherwise the
`"from command line argument"` line, each followed by a blank prefixed
line. -/
def fileBlockLines (pre : String) : Option NixCode → List String
  | none => []
  | some nc =>
    if nc.errPos.file ≠ "" then
      [pre ++ "in file: " ++ ANSI_BLUE ++ nc.errPos.file ++ " " ++
        showErrPos nc.errPos ++ ANSI_NORMAL, pre]
    else
      [pre ++ "from command line argument", pre]

/-- The description block (error.cc lines 241-244). -/
def descBlockLines (pre : String) (d : String) : List String :=
  if d ≠ "" then [pre ++ d, pre] else []

/-- The guarded context block of `operator<<` (error.cc lines 252-255):
`printCodeLines` plus a blank prefixed line, emitted only when the
extracted `errLineOfCode` is present. -/
def codeBlockLines (pre : String) (nc : NixCode) : List String :=
  if nc.errLineOfCode.isSome then printCodeLines pre nc ++ [pre] else []

/-- `operator<<(std::ostream&, const ErrorInfo&)` (error.cc lines 147-264)
as the list of emitted lines.  The hint block dereferences
`*einfo.hint` unconditionally inside the position-present branch
(error.cc line 258); on an absent optional that dereference is undefined
behavior, so the rendering is modelled as `none` (undefined) in exactly
that situation, and `some` of the emitted lines otherwise. -/
def renderErrorInfo (fs : FileSystem) (e : ErrorInfo) : Option (List String) :=
  let pre : String := ""
  let hdr : List String := [headerLine pre e]
  let fileB : List String := fileBlockLines pre e.nixCode
  let descB : List String := descBlockLines pre e.description
  match e.nixCode with
  | none => some (hdr ++ fileB ++ descB)
  | some nc =>
    let nc2 := getCodeLines fs nc
    let codeB := codeBlockLines pre nc2
    match e.hint with
    | none => none
    | some h => some (hdr ++ fileB ++ descB ++ codeB ++ [pre ++ h, pre])

/-! Concrete fixtures used by counterexamples and witnesses. -/

/-- A file system on which every `open` fails. -/
def fsEmpty : FileSystem := fun _ => none

/-- A report whose position carries the string-source sentinel file. -/
def e1 : ErrorInfo :=
  ⟨0, "n", "d", some "h", none, some ⟨⟨"(string)", 10, 2⟩, none, none, none⟩⟩

/-- A report with a position present and an absent hint. -/
def e2 : ErrorInfo := ⟨0, "n", "d", none, none, some ⟨⟨"", 1, 1⟩, none, none, none⟩⟩

/-- A report with a short name and no program name. -/
def e3 : ErrorInfo := ⟨0, "x", "", none, none, none⟩

/-- A snippet whose error line number needs six digits. -/
def nc5 : NixCode := ⟨⟨"f", 100000, 4⟩, none, some "abc", none⟩

/-- A five-line file. -/
def fs5 : FileSystem :=
  fun s => if s = "f" then some ⟨["l1", "l2", "l3", "l4", "l5"], TailEvent.eof⟩ else none

/-- A two-line file. -/
def fs6 : FileSystem := fun s => if s = "f" then some ⟨["a", "b"], TailEvent.eof⟩ else none

/-- A file whose read stream fails after one line. -/
def fs7 : FileSystem := fun s => if s = "g" then some ⟨["a"], TailEvent.fail⟩ else none

/-- A report with no position but a hint present. -/
def e10 : ErrorInfo := ⟨0, "n", "d", some "secret", none, none⟩

/-! Helper lemmas. -/

/-- Visible length distributes over segment-list concatenation. -/
theorem segsVisibleLen_append (a b : List Seg) :
    segsVisibleLen (a ++ b) = segsVisibleLen a + segsVisibleLen b := by
  induction a with
  | nil => simp [segsVisibleLen]
  | cons s r ih => cases s <;> simp [segsVisibleLen, ih] <;> omega

/-- The dash string has exactly `dashwidth` characters. -/
theorem dashesStr_length (pre : String) (e : ErrorInfo) :
    (dashesStr pre e).length = dashwidth pre e := by
  simp [dashesStr, String.length_mk]

/-- Visible header length, as a sum over its parts: both header variants
contribute the level label, 7 punctuation characters, the name (empty in
the second variant), the dashes and the program name. -/
theorem headerVisibleLen_eq (pre : String) (e : ErrorInfo) :
    headerVisibleLen pre e =
      pre.length + segsVisibleLen (levelSegs e.level) + 7 + e.name.length +
        dashwidth pre e + (e.programName.getD "").length := by
  have hs5 : (" --- " : String).length = 5 := rfl
  have hs6 : (" -----" : String).length = 6 := rfl
  have hs1 : (" " : String).length = 1 := rfl
  by_cases hn : e.name = "" <;>
    simp only [headerVisibleLen, headerSegs, hn, List.cons_append, List.nil_append,
      List.append_assoc, segsVisibleLen_append, segsVisibleLen, dashesStr_length,
      segStr, hs5, hs6, hs1, String.length_empty, ne_eq, not_true_eq_false,
      not_false_eq_true, if_true, if_false, ite_true, ite_false] <;>
    omega

/-- For the seven recognized severities the built level string carries
exactly 11 bytes of color escape codes besides its visible label. -/
theorem levelString_len_recognized (l : Int) (h0 : 0 ≤ l) (h6 : l ≤ 6) :
    (levelString l).length = segsVisibleLen (levelSegs l) + 11 := by
  interval_cases l <;> decide

/-- `toString` of a nonnegative `Int` is the decimal numeral of its `toNat`. -/
theorem toString_int_nonneg (i : Int) (h : 0 ≤ i) : toString i = Nat.repr i.toNat := by
  cases i with
  | ofNat m => rfl
  | negSucc m => exact absurd h (by simp)

/-- Positive integers up to 99999 print in at most five characters. -/
theorem toString_len_le5 (n : Int) (h1 : 0 < n) (h2 : n ≤ 99999) :
    (toString n).length ≤ 5 := by
  rw [toString_int_nonneg n (le_of_lt h1)]
  have h4 : (10 : Nat) ^ 5 = 100000 := by norm_num
  exact Nat.repr_length n.toNat 5 (by norm_num) (by rw [h4]; omega)

/-- When the numeral fits, the 5-wide field is exactly 5 characters. -/
theorem padLeft5_length_eq (n : Int) (h : (toString n).length ≤ 5) :
    (padLeft5 n).length = 5 := by
  by_cases hc : (toString n).length < 5
  · simp only [padLeft5, if_pos hc, String.length_append, String.length_mk,
      List.length_replicate]
    omega
  · simp only [padLeft5, if_neg hc]
    omega

/-- Characterization of the `getCodeLines` read loop: starting at 1-based
count `count ≤ pl + 2`, the loop leaves the position untouched, records the
stream lines at counts `pl`, `pl + 1`, `pl + 2` into the three optionals
(keeping prior values when the stream is too short), consumes exactly up to
the `pl + 2` read, and reaches the end of the stream exactly when the
stream is shorter than that. -/
theorem codeLoop_spec (ls : List String) : ∀ (pl count : Nat) (nc : NixCode),
    1 ≤ count → count ≤ pl + 2 →
    (codeLoop pl ls count nc).code.errPos = nc.errPos ∧
    (codeLoop pl ls count nc).code.prevLineOfCode =
      (if count ≤ pl then (ls.get? (pl - count)).or nc.prevLineOfCode
       else nc.prevLineOfCode) ∧
    (codeLoop pl ls count nc).code.errLineOfCode =
      (if count ≤ pl + 1 then (ls.get? (pl + 1 - count)).or nc.errLineOfCode
       else nc.errLineOfCode) ∧
    (codeLoop pl ls count nc).code.nextLineOfCode =
      (ls.get? (pl + 2 - count)).or nc.nextLineOfCode ∧
    (codeLoop pl ls count nc).consumed = min (pl + 3 - count) ls.length ∧
    ((codeLoop pl ls count nc).reachedEnd = true ↔ ls.length < pl + 3 - count) := by
  induction ls with
  | nil =>
    intro pl count nc h1 h2
    refine ⟨rfl, ?_, ?_, ?_, ?_, ?_⟩ <;>
      simp [codeLoop, List.get?_nil, Option.none_or] <;> omega
  | cons l ls ih =>
    intro pl count nc h1 h2
    by_cases hlt : count < pl
    · have hrec := ih pl (count + 1) nc (by omega) (by omega)
      have hred : codeLoop pl (l :: ls) count nc =
          ⟨(codeLoop pl ls (count + 1) nc).code,
           (codeLoop pl ls (count + 1) nc).consumed + 1,
           (codeLoop pl ls (count + 1) nc).reachedEnd⟩ := by
        simp [codeLoop, if_pos hlt]
      obtain ⟨q0, q1, q2, q3, q4, q5⟩ := hrec
      rw [hred]
      refine ⟨q0, ?_, ?_, ?_, ?_, ?_⟩
      · rw [q1, if_pos (by omega : count ≤ pl), if_pos (by omega : count + 1 ≤ pl)]
        rw [show pl - count = (pl - (count + 1)) + 1 from by omega, List.get?_cons_succ]
      · rw [q2, if_pos (by omega : count ≤ pl + 1), if_pos (by omega : count + 1 ≤ pl + 1)]
        rw [show pl + 1 - count = (pl + 1 - (count + 1)) + 1 from by omega,
          List.get?_cons_succ]
      · rw [q3, show pl + 2 - count = (pl + 2 - (count + 1)) + 1 from by omega,
          List.get?_cons_succ]
      · simp only [q4, List.length_cons]
        omega
      · rw [q5, List.length_cons]
        constructor <;> intro h <;> omega
    · by_cases heq : count = pl
      · have hrec := ih pl (count + 1) { nc with prevLineOfCode := some l }
          (by omega) (by omega)
        have hred : codeLoop pl (l :: ls) count nc =
            ⟨(codeLoop pl ls (count + 1) { nc with prevLineOfCode := some l }).code,
             (codeLoop pl ls (count + 1) { nc with prevLineOfCode := some l }).consumed + 1,
             (codeLoop pl ls (count + 1) { nc with prevLineOfCode := some l }).reachedEnd⟩ := by
          simp [codeLoop, if_neg hlt, if_pos heq]
        obtain ⟨q0, q1, q2, q3, q4, q5⟩ := hrec
        rw [hred]
        refine ⟨q0, ?_, ?_, ?_, ?_, ?_⟩
        · rw [q1, if_neg (by omega : ¬ count + 1 ≤ pl), if_pos (by omega : count ≤ pl)]
          rw [show pl - count = 0 from by omega, List.get?_cons_zero]
          rfl
        · rw [q2, if_pos (by omega : count ≤ pl + 1), if_pos (by omega : count + 1 ≤ pl + 1)]
          rw [show pl + 1 - count = (pl + 1 - (count + 1)) + 1 from by omega,
            List.get?_cons_succ]
        · rw [q3, show pl + 2 - count = (pl + 2 - (count + 1)) + 1 from by omega,
            List.get?_cons_succ]
        · simp only [q4, List.length_cons]
          omega
        · rw [q5, List.length_cons]
          constructor <;> intro h <;> omega
      · by_cases heq1 : count = pl + 1
        · have hrec := ih pl (count + 1) { nc with errLineOfCode := some l }
            (by omega) (by omega)
          have hred : codeLoop pl (l :: ls) count nc =
              ⟨(codeLoop pl ls (count + 1) { nc with errLineOfCode := some l }).code,
               (codeLoop pl ls (count + 1) { nc with errLineOfCode := some l }).consumed + 1,
               (codeLoop pl ls (count + 1) { nc with errLineOfCode := some l }).reachedEnd⟩ := by
            simp [codeLoop, if_neg hlt, if_neg heq, if_pos heq1]
          obtain ⟨q0, q1, q2, q3, q4, q5⟩ := hrec
          rw [hred]
          refine ⟨q0, ?_, ?_, ?_, ?_, ?_⟩
          · rw [q1, if_neg (by omega : ¬ count + 1 ≤ pl), if_neg (by omega : ¬ count ≤ pl)]
          · rw [q2, if_neg (by omega : ¬ count + 1 ≤ pl + 1),
              if_pos (by omega : count ≤ pl + 1)]
            rw [show pl + 1 - count = 0 from by omega, List.get?_cons_zero]
            rfl
          · rw [q3, show pl + 2 - count = (pl + 2 - (count + 1)) + 1 from by omega,
              List.get?_cons_succ]
          · simp only [q4, List.length_cons]
            omega
          · rw [q5, List.length_cons]
            constructor <;> intro h <;> omega
        · have heq2 : count = pl + 2 := by omega
          have hred : codeLoop pl (l :: ls) count nc =
              ⟨{ nc with nextLineOfCode := some l }, 1, false⟩ := by
            simp [codeLoop, if_neg hlt, if_neg heq, if_neg heq1, if_pos heq2]
          rw [hred]
          refine ⟨rfl, ?_, ?_, ?_, ?_, ?_⟩
          · rw [if_neg (by omega : ¬ count ≤ pl)]
          · rw [if_neg (by omega : ¬ count ≤ pl + 1)]
          · rw [show pl + 2 - count = 0 from by omega, List.get?_cons_zero]
            rfl
          · show (1 : ℕ) = min (pl + 3 - count) (l :: ls).length
            rw [List.length_cons]
            omega
          · show (false = true) ↔ (l :: ls).length < pl + 3 - count
            rw [List.length_cons]
            constructor
            · intro h
              exact absurd h (by simp)
            · intro h
              exact absurd h (by omega)

/-! Claim theorems. -/

/-- Claim C9: for every position, `showErrPos` returns `"(line:column)"`
when both line and column are positive, `"(line)"` when only the line is
positive, and the empty string when `line <= 0`. -/
theorem c9_showErrPos_cases (p : ErrPos) :
    (0 < p.line → 0 < p.column →
      showErrPos p = "(" ++ toString p.line ++ ":" ++ toString p.column ++ ")") ∧
    (0 < p.line → p.column ≤ 0 →
      showErrPos p = "(" ++ toString p.line ++ ")") ∧
    (p.line ≤ 0 → showErrPos p = "") := by
  refine ⟨?_, ?_, ?_⟩
  · intro h1 h2
    simp [showErrPos, h1, h2]
  · intro h1 h2
    have h3 : ¬ 0 < p.column := by omega
    simp [showErrPos, h1, h3]
  · intro h1
    have h2 : ¬ 0 < p.line := by omega
    simp [showErrPos, h2]

/-- Witness for C9 at positions (3,4), (3,0) and (0,7). -/
theorem c9_witness :
    showErrPos ⟨"f", 3, 4⟩ = "(" ++ toString (3 : Int) ++ ":" ++ toString (4 : Int) ++ ")" ∧
    showErrPos ⟨"f", 3, 0⟩ = "(" ++ toString (3 : Int) ++ ")" ∧
    showErrPos ⟨"f", 0, 7⟩ = "" :=
  ⟨(c9_showErrPos_cases ⟨"f", 3, 4⟩).1 (by decide) (by decide),
   (c9_showErrPos_cases ⟨"f", 3, 0⟩).2.1 (by decide) (by decide),
   (c9_showErrPos_cases ⟨"f", 0, 7⟩).2.2 (by decide)⟩

/-- Claim C8: the severity table is total: each of the seven enumeration
values maps to its fixed label and color, and every numeric value outside
the enumeration renders as the fallback label containing the literal
offending value. -/
theorem c8_severity_table_total :
    levelString 0 = ANSI_RED ++ "error:" ++ ANSI_NORMAL ∧
    levelString 1 = ANSI_YELLOW ++ "warning:" ++ ANSI_NORMAL ∧
    levelString 2 = ANSI_GREEN ++ "info:" ++ ANSI_NORMAL ∧
    levelString 3 = ANSI_GREEN ++ "talk:" ++ ANSI_NORMAL ∧
    levelString 4 = ANSI_GREEN ++ "chat:" ++ ANSI_NORMAL ∧
    levelString 5 = ANSI_GREEN ++ "vomit:" ++ ANSI_NORMAL ∧
    levelString 6 = ANSI_YELLOW ++ "debug:" ++ ANSI_NORMAL ∧
    ∀ l : Int, l < 0 ∨ 6 < l → levelString l = "invalid error level: " ++ toString l := by
  refine ⟨by decide, by decide, by decide, by decide, by decide, by decide, by decide, ?_⟩
  intro l h
  have h0 : l ≠ 0 := by omega
  have h1 : l ≠ 1 := by omega
  have h2 : l ≠ 2 := by omega
  have h3 : l ≠ 3 := by omega
  have h4 : l ≠ 4 := by omega
  have h5 : l ≠ 5 := by omega
  have h6 : l ≠ 6 := by omega
  simp [levelString, levelSegs, segsRender, segStr, h0, h1, h2, h3, h4, h5, h6,
    String.append_empty]

/-- Witness for C8 at the out-of-range severity value 42. -/
theorem c8_witness : levelString 42 = "invalid error level: " ++ toString (42 : Int) :=
  c8_severity_table_total.2.2.2.2.2.2.2 42 (Or.inr (by decide))

/-- Claim C4: when the extracted snippet's error line is absent, the
context block of the report (the guarded call to `printCodeLines`) emits
no output lines at all, whatever the previous/next lines hold. -/
theorem c4_no_context_without_errLine (pre : String) (nc : NixCode)
    (h : nc.errLineOfCode = none) : codeBlockLines pre nc = [] := by
  simp [codeBlockLines, h]

/-- Witness for C4: a snippet with previous and next lines present but no
error line produces an empty context block. -/
theorem c4_witness : codeBlockLines "" ⟨⟨"f", 3, 2⟩, some "p", none, some "n"⟩ = [] :=
  c4_no_context_without_errLine "" ⟨⟨"f", 3, 2⟩, some "p", none, some "n"⟩ rfl

/-- Claim C10: when the report has no position, the rendered output is the
header, file block and description block only — the hint block is emitted
solely inside the position-present branch, so the output does not depend
on the hint at all. -/
theorem c10_no_hint_without_position (fs : FileSystem) (e : ErrorInfo)
    (hpos : e.nixCode = none) (h : Option String) :
    renderErrorInfo fs e =
      some ([headerLine "" e] ++ fileBlockLines "" e.nixCode ++
        descBlockLines "" e.description) ∧
    renderErrorInfo fs e = renderErrorInfo fs { e with hint := h } := by
  obtain ⟨lv, nm, d, hnt, pn, ncd⟩ := e
  simp only at hpos
  subst hpos
  constructor
  · simp [renderErrorInfo]
  · simp [renderErrorInfo, headerLine, headerSegs, levelSegs, ndl, dashesStr, dashwidth,
      levelString]

/-- Witness for C10: with no position, a report with a hint present renders
identically to the same report with the hint removed, and its output is
just header, file and description blocks. -/
theorem c10_witness :
    renderErrorInfo fsEmpty e10 =
      some ([headerLine "" e10] ++ fileBlockLines "" e10.nixCode ++
        descBlockLines "" e10.description) ∧
    renderErrorInfo fsEmpty e10 = renderErrorInfo fsEmpty { e10 with hint := none } :=
  c10_no_hint_without_position fsEmpty e10 rfl none

/-- Claim C2 (divergence witness): a report with a position present and an
absent hint makes `operator<<` dereference the disengaged
`std::optional` `einfo.hint` (error.cc line 258), which is undefined
behavior; in the embedding the rendering is accordingly undefined
(`none`), not an empty hint line. -/
theorem c2_absent_hint_renders_undefined : renderErrorInfo fsEmpty e2 = none := by
  rfl

/-- Claim C1 counterexample: for the position
`{file := "(string)", line := 10, column := 2}` the assembler renders a
defined report that does NOT contain the `"from command line argument"`
line (the `"in file:"` line is emitted instead, since that branch tests
for the empty file name, not the `"(string)"` sentinel). -/
theorem c1_counterexample :
    (renderErrorInfo fsEmpty e1).isSome = true ∧
    "from command line argument" ∉ (renderErrorInfo fsEmpty e1).getD [] ∧
    ("in file: " ++ ANSI_BLUE ++ "(string)" ++ " " ++ "(10:2)" ++ ANSI_NORMAL) ∈
      (renderErrorInfo fsEmpty e1).getD [] := by
  decide

/-- Claim C1 (amended): the `"from command line argument"` line (followed
by a blank prefixed line) replaces the `"in file:"` line exactly when the
position's file is the empty string, while the `"(string)"` sentinel is
what suppresses all filesystem access in the extractor (leaving the
snippet untouched). -/
theorem c1_amended :
    (∀ (pre : String) (nc : NixCode), nc.errPos.file = "" →
      fileBlockLines pre (some nc) = [pre ++ "from command line argument", pre]) ∧
    (∀ (fs : FileSystem) (nc : NixCode), nc.errPos.file = "(string)" →
      (extractRun fs nc).fsAccessed = false ∧ (extractRun fs nc).code = nc) := by
  constructor
  · intro pre nc h
    simp [fileBlockLines, h]
  · intro fs nc h
    by_cases hl : nc.errPos.line ≤ 0
    · simp [extractRun, hl]
    · simp [extractRun, hl, h]

/-- Witness for C1 (amended) at a concrete empty-file position and a
concrete `"(string)"` position. -/
theorem c1_witness :
    fileBlockLines "" (some ⟨⟨"", 10, 2⟩, none, none, none⟩) =
      ["" ++ "from command line argument", ""] ∧
    (extractRun fsEmpty ⟨⟨"(string)", 10, 2⟩, none, none, none⟩).fsAccessed = false :=
  ⟨c1_amended.1 "" ⟨⟨"", 10, 2⟩, none, none, none⟩ rfl,
   (c1_amended.2 fsEmpty ⟨⟨"(string)", 10, 2⟩, none, none, none⟩ rfl).1⟩

/-- Claim C3 counterexample: for name `"x"`, no program name and severity
`Error`, the combined used width is 21 (at most 77), yet the header's
visible length ignoring color escape codes is 73, not 80: the width
computation counts the 11 escape-code bytes inside the level string and
only 3 of the 7 visible punctuation characters. -/
theorem c3_counterexample :
    ndl "" e3 ≤ 77 ∧ headerVisibleLen "" e3 = 73 ∧ headerVisibleLen "" e3 ≠ 80 := by
  decide

/-- Claim C3 (amended): when the combined used header width (as computed,
escape codes included) exceeds 77 the dash count is exactly 3 (never
negative); when it is at most 77 and the severity is one of the seven
recognized values, the header line's total visible length, ignoring color
escape codes, is exactly 73 columns. -/
theorem c3_amended (e : ErrorInfo) :
    (77 < ndl "" e → dashwidth "" e = 3) ∧
    (ndl "" e ≤ 77 → 0 ≤ e.level → e.level ≤ 6 → headerVisibleLen "" e = 73) := by
  constructor
  · intro h
    have h1 : 80 - 3 < ndl "" e := by omega
    simp [dashwidth, h1]
  · intro h h0 h6
    have h1 := headerVisibleLen_eq "" e
    have h2 := levelString_len_recognized e.level h0 h6
    have h3 : ¬ (80 - 3 < ndl "" e) := by omega
    have h4 : dashwidth "" e = 80 - ndl "" e := by simp [dashwidth, h3]
    have h5 : ndl "" e = ("" : String).length + (levelString e.level).length + 3 +
        e.name.length + (e.programName.getD "").length := rfl
    have hpre : ("" : String).length = 0 := rfl
    omega

/-- Witness for C3 (amended): a 70-character name forces the 3-dash
fallback, and the short-name header is 73 visible columns. -/
theorem c3_witness :
    dashwidth "" ⟨0, String.mk (List.replicate 70 'a'), "", none, none, none⟩ = 3 ∧
    headerVisibleLen "" e3 = 73 :=
  ⟨(c3_amended ⟨0, String.mk (List.replicate 70 'a'), "", none, none, none⟩).1 (by decide),
   (c3_amended e3).2 (by decide) (by decide) (by decide)⟩

/-- Claim C5 counterexample: for a snippet at line 100000 (a six-digit
line number) the numbered-line gutter is 8 characters while the caret
gutter is a fixed 7, so the caret is misaligned by one column. -/
theorem c5_counterexample :
    (numberedGutter "" nc5.errPos.line).length ≠ (caretGutter "").length ∧
    printCodeLines "" nc5 =
      [" 100000| abc", "      |    " ++ ANSI_RED ++ "^" ++ ANSI_NORMAL] := by
  decide

/-- Claim C5 (amended): whenever the printed line number fits the 5-wide
field (so for lines up to 99999) the caret gutter width equals the
numbered-line gutter width; and rendering a position at line 3, column 4
of a 5-line file yields numbered lines 2, 3, 4 and a caret sitting
exactly 4 characters past that gutter. -/
theorem c5_amended :
    (∀ (pre : String) (n : Int), 0 < n → n ≤ 99999 →
      (numberedGutter pre n).length = (caretGutter pre).length) ∧
    printCodeLines "" (getCodeLines fs5 ⟨⟨"f", 3, 4⟩, none, none, none⟩) =
      [codeLine "" 2 "l2", codeLine "" 3 "l3",
       caretGutter "" ++ "    " ++ ANSI_RED ++ "^" ++ ANSI_NORMAL,
       codeLine "" 4 "l4"] := by
  constructor
  · intro pre n h1 h2
    have h3 := padLeft5_length_eq n (toString_len_le5 n h1 h2)
    have hg1 : (" " : String).length = 1 := rfl
    have hg2 : ("|" : String).length = 1 := rfl
    have hg3 : ("      |" : String).length = 7 := rfl
    simp only [numberedGutter, caretGutter, String.length_append, h3, hg1, hg2, hg3]
  · decide

/-- Witness for C5 (amended): at line number 3 the gutters agree. -/
theorem c5_witness : (numberedGutter "" 3).length = (caretGutter "").length :=
  c5_amended.1 "" 3 (by decide) (by decide)

/-- Claim C6: over a readable file, for a position with positive line and
non-sentinel file, the extractor records the file's lines numbered
`line - 1`, `line`, `line + 1` (1-based) as previous/error/next — lines
past end-of-file stay absent — and consumes the stream only up to the
`line + 1` read. -/
theorem c6_extractor_reads (fs : FileSystem) (f : String) (L : List String)
    (t : TailEvent) (line col : Int) (hline : 0 < line) (hfile : f ≠ "(string)")
    (hfs : fs f = some ⟨L, t⟩) :
    (extractRun fs ⟨⟨f, line, col⟩, none, none, none⟩).code.prevLineOfCode =
      (if 2 ≤ line then L.get? (line.toNat - 2) else none) ∧
    (extractRun fs ⟨⟨f, line, col⟩, none, none, none⟩).code.errLineOfCode =
      L.get? (line.toNat - 1) ∧
    (extractRun fs ⟨⟨f, line, col⟩, none, none, none⟩).code.nextLineOfCode =
      L.get? line.toNat ∧
    (codeLoop (line - 1).toNat L 1 ⟨⟨f, line, col⟩, none, none, none⟩).consumed =
      min (line.toNat + 1) L.length := by
  have hnl : ¬ ((⟨⟨f, line, col⟩, none, none, none⟩ : NixCode).errPos.line ≤ 0) := by
    simp only []
    omega
  have hcode : (extractRun fs ⟨⟨f, line, col⟩, none, none, none⟩).code =
      (codeLoop (line - 1).toNat L 1 ⟨⟨f, line, col⟩, none, none, none⟩).code := by
    simp only [extractRun, if_neg hnl, if_neg hfile, hfs]
    cases hr : (codeLoop (line - 1).toNat L 1
        (⟨⟨f, line, col⟩, none, none, none⟩ : NixCode)).reachedEnd <;>
      cases t <;> simp [hr]
  obtain ⟨q0, q1, q2, q3, q4, q5⟩ :=
    codeLoop_spec L (line - 1).toNat 1 ⟨⟨f, line, col⟩, none, none, none⟩
      (by omega) (by omega)
  refine ⟨?_, ?_, ?_, ?_⟩
  · rw [hcode, q1]
    by_cases h2 : 2 ≤ line
    · rw [if_pos (by omega : 1 ≤ (line - 1).toNat), if_pos h2,
        show (line - 1).toNat - 1 = line.toNat - 2 from by omega, Option.or_none]
    · rw [if_neg (by omega : ¬ 1 ≤ (line - 1).toNat), if_neg h2]
  · rw [hcode, q2, if_pos (by omega : 1 ≤ (line - 1).toNat + 1),
      show (line - 1).toNat + 1 - 1 = line.toNat - 1 from by omega, Option.or_none]
  · rw [hcode, q3, show (line - 1).toNat + 2 - 1 = line.toNat from by omega,
      Option.or_none]
  · rw [q4]
    congr 1
    omega

/-- Witness for C6: a 2-line file read at line 2 yields previous and error
lines set and the next line absent. -/
theorem c6_witness :
    (extractRun fs6 ⟨⟨"f", 2, 1⟩, none, none, none⟩).code.prevLineOfCode = some "a" ∧
    (extractRun fs6 ⟨⟨"f", 2, 1⟩, none, none, none⟩).code.errLineOfCode = some "b" ∧
    (extractRun fs6 ⟨⟨"f", 2, 1⟩, none, none, none⟩).code.nextLineOfCode = none := by
  have h := c6_extractor_reads fs6 "f" ["a", "b"] TailEvent.eof 2 1
    (by decide) (by decide) (by decide)
  refine ⟨?_, ?_, ?_⟩
  · rw [h.1]
    rfl
  · rw [h.2.1]
    rfl
  · rw [h.2.2.1]
    rfl

/-- Claim C7: the extractor never propagates failure.  With `line <= 0` or
the `"(string)"` sentinel it returns with an untouched snippet and no
filesystem access; a failed `open` is logged and returns the untouched
snippet; and when the read stream fails, the snippet returned is exactly
the one the loop had collected (independent of how the stream ends), with
the failure logged exactly when the loop actually reached it.  The
embedding of `getCodeLines` is a total function: no outcome raises. -/
theorem c7_extractor_never_fails :
    (∀ (fs : FileSystem) (nc : NixCode), nc.errPos.line ≤ 0 →
      extractRun fs nc = ⟨nc, false, false⟩) ∧
    (∀ (fs : FileSystem) (nc : NixCode), nc.errPos.file = "(string)" →
      extractRun fs nc = ⟨nc, false, false⟩) ∧
    (∀ (fs : FileSystem) (nc : NixCode), 0 < nc.errPos.line →
      nc.errPos.file ≠ "(string)" → fs nc.errPos.file = none →
      extractRun fs nc = ⟨nc, true, true⟩) ∧
    (∀ (fs : FileSystem) (nc : NixCode) (L : List String) (t : TailEvent),
      0 < nc.errPos.line → nc.errPos.file ≠ "(string)" →
      fs nc.errPos.file = some ⟨L, t⟩ →
      (extractRun fs nc).code = (codeLoop (nc.errPos.line - 1).toNat L 1 nc).code ∧
      ((extractRun fs nc).logged = true ↔
        t = TailEvent.fail ∧
          (codeLoop (nc.errPos.line - 1).toNat L 1 nc).reachedEnd = true)) := by
  refine ⟨?_, ?_, ?_, ?_⟩
  · intro fs nc h
    simp [extractRun, h]
  · intro fs nc h
    by_cases hl : nc.errPos.line ≤ 0
    · simp [extractRun, hl]
    · simp [extractRun, hl, h]
  · intro fs nc hl hf hfs
    have hnl : ¬ nc.errPos.line ≤ 0 := by omega
    simp [extractRun, hnl, hf, hfs]
  · intro fs nc L t hl hf hfs
    have hnl : ¬ nc.errPos.line ≤ 0 := by omega
    constructor
    · simp only [extractRun, if_neg hnl, if_neg hf, hfs]
      cases hr : (codeLoop (nc.errPos.line - 1).toNat L 1 nc).reachedEnd <;>
        cases t <;> simp [hr]
    · simp only [extractRun, if_neg hnl, if_neg hf, hfs]
      cases hr : (codeLoop (nc.errPos.line - 1).toNat L 1 nc).reachedEnd <;>
        cases t <;> simp [hr]

/-- Witness for C7: concrete runs of all four cases — no position, the
string sentinel, a failing `open`, and a read stream that fails after one
line with target line 3 (so the failure is reached and logged). -/
theorem c7_witness :
    extractRun fs7 ⟨⟨"h", 0, 0⟩, none, none, none⟩ =
      ⟨⟨⟨"h", 0, 0⟩, none, none, none⟩, false, false⟩ ∧
    extractRun fs7 ⟨⟨"(string)", 3, 1⟩, none, none, none⟩ =
      ⟨⟨⟨"(string)", 3, 1⟩, none, none, none⟩, false, false⟩ ∧
    extractRun fs7 ⟨⟨"h", 3, 1⟩, none, none, none⟩ =
      ⟨⟨⟨"h", 3, 1⟩, none, none, none⟩, true, true⟩ ∧
    (extractRun fs7 ⟨⟨"g", 3, 1⟩, none, none, none⟩).logged = true := by
  refine ⟨c7_extractor_never_fails.1 fs7 _ (by decide),
    c7_extractor_never_fails.2.1 fs7 _ (by decide),
    c7_extractor_never_fails.2.2.1 fs7 _ (by decide) (by decide) (by decide), ?_⟩
  have h := (c7_extractor_never_fails.2.2.2 fs7 ⟨⟨"g", 3, 1⟩, none, none, none⟩
    ["a"] TailEvent.fail (by decide) (by decide) (by decide)).2
  exact h.mpr ⟨rfl, by decide⟩

end NixError
